import Mathlib

/-!
Verification of the multi-axis vector-field tomography core
(`multi_axis` module): rotation-matrix conventions, projection-vector
construction, per-angle component weights, angle-scheme generation,
the threshold schedule of the iterative update algorithm, and the
decontamination (weighted projection update) step.

All array code is embedded shallowly: projection stacks become functions
`row → tiltIndex → col → ℝ`, numpy `linspace` becomes an explicit list,
and fallible numpy calls become `Except`.
-/

namespace MultiAxis

noncomputable section

open Matrix

/-- Degrees to radians, `a * np.pi / 180` as in the source. -/
def deg2rad (a : ℝ) : ℝ := a * Real.pi / 180

/-- Elementary rotation about x: `np.array([[1,0,0],[0,Cx,-Sx],[0,Sx,Cx]])`
(argument already in radians, as in `rotation_matrix` after conversion). -/
def mrotx (t : ℝ) : Matrix (Fin 3) (Fin 3) ℝ :=
  !![1, 0, 0; 0, Real.cos t, -Real.sin t; 0, Real.sin t, Real.cos t]

/-- Elementary rotation about y: `np.array([[Cy,0,Sy],[0,1,0],[-Sy,0,Cy]])`. -/
def mroty (t : ℝ) : Matrix (Fin 3) (Fin 3) ℝ :=
  !![Real.cos t, 0, Real.sin t; 0, 1, 0; -Real.sin t, 0, Real.cos t]

/-- Elementary rotation about z: `np.array([[Cz,-Sz,0],[Sz,Cz,0],[0,0,1]])`. -/
def mrotz (t : ℝ) : Matrix (Fin 3) (Fin 3) ℝ :=
  !![Real.cos t, -Real.sin t, 0; Real.sin t, Real.cos t, 0; 0, 0, 1]

/-- `rotation_matrix(ax,ay,az,intrinsic)` from the source: converts the
degree angles, builds the elementary matrices, and composes them
`mrotz.dot(mroty).dot(mrotx)` when intrinsic, else
`mrotx.dot(mroty).dot(mrotz)`. -/
def rotation_matrix (ax ay az : ℝ) (intrinsic : Bool) : Matrix (Fin 3) (Fin 3) ℝ :=
  let mx := mrotx (deg2rad ax)
  let my := mroty (deg2rad ay)
  let mz := mrotz (deg2rad az)
  if intrinsic then mz * my * mx else mx * my * mz

/-- `get_astravec(ax,ay,az)` from the source: negate `ay`, build the
extrinsic rotation matrix, and return the concatenation of
`r = mrot.dot([0,0,1])*-1`, `d = [0,0,0]`, `u = mrot.dot([1,0,0])`,
`v = mrot.dot([0,1,0])` as a 12-component vector. -/
def get_astravec (ax ay az : ℝ) : Fin 12 → ℝ :=
  let ay2 := -ay
  let d : Fin 3 → ℝ := ![0, 0, 0]
  let mrot := rotation_matrix ax ay2 az false
  let r : Fin 3 → ℝ := fun i => mrot.mulVec ![0, 0, 1] i * (-1)
  let u : Fin 3 → ℝ := mrot.mulVec ![1, 0, 0]
  let v : Fin 3 → ℝ := mrot.mulVec ![0, 1, 0]
  ![r 0, r 1, r 2, d 0, d 1, d 2, u 0, u 1, u 2, v 0, v 1, v 2]

/-- One step of `calculate_A_contributions`: the intrinsic rotation matrix is
applied to each canonical axis and the result is dotted with the beam
direction `[0,0,1]`. -/
def calculate_A_contribution (ax ay az : ℝ) : ℝ × ℝ × ℝ :=
  let mrot := rotation_matrix ax ay az true
  let nx := mrot.mulVec ![1, 0, 0]
  let ny := mrot.mulVec ![0, 1, 0]
  let nz := mrot.mulVec ![0, 0, 1]
  (nx ⬝ᵥ ![0, 0, 1], ny ⬝ᵥ ![0, 0, 1], nz ⬝ᵥ ![0, 0, 1])

/-- `calculate_A_contributions(angles)` from the source, mapped over the
angle scheme. -/
def calculate_A_contributions (angles : List (ℝ × ℝ × ℝ)) : List (ℝ × ℝ × ℝ) :=
  angles.map fun a => calculate_A_contribution a.1 a.2.1 a.2.2

/-- A phase projection stack: a 3D real array with axes
`(row, tiltIndex, col)`, embedded as a function. -/
def Stack : Type := ℕ → ℕ → ℕ → ℝ

/-- A reconstructed volume, embedded as a function on voxel indices. -/
def Volume : Type := ℕ → ℕ → ℕ → ℝ

/-- CODATA value of the magnetic flux quantum
`constants.codata.value('mag. flux quantum')`, in Wb. -/
def magFluxQuantum : ℝ := 2.067833848e-15

/-- `const = -np.pi/constants.codata.value('mag. flux quantum')/(2*np.pi)`
from `update_weighted_proj_data`. -/
def const : ℝ := -Real.pi / magFluxQuantum / (2 * Real.pi)

/-- `weight_phases(projs, ws)` from the source: multiplies tilt slice `i`
of the stack by `ws[i]` (numpy `projs[:,i,:] * ws[i]`, reassembled with the
tilt index as the middle axis). -/
def weight_phases (projs : Stack) (ws : ℕ → ℝ) : Stack :=
  fun r i c => projs r i c * ws i

/-- `update_weighted_proj_data(phase_projs, a_weighted_x, a_weighted_y,
a_weighted_z, ws)` from the source, in exact real arithmetic:
for each component, remove the other two components' weighted
contributions from the raw phase data and divide by the component's own
weight (`weight_phases(new, 1/ws[:,k])`). -/
def update_weighted_proj_data
    (phase_projs a_weighted_x a_weighted_y a_weighted_z : Stack)
    (ws : ℕ → ℝ × ℝ × ℝ) : Stack × Stack × Stack :=
  let new_x0 : Stack := fun r i c =>
    phase_projs r i c * 1 / const
      - weight_phases a_weighted_y (fun j => (ws j).2.1) r i c
      - weight_phases a_weighted_z (fun j => (ws j).2.2) r i c
  let new_x := weight_phases new_x0 fun j => 1 / (ws j).1
  let new_y0 : Stack := fun r i c =>
    phase_projs r i c * 1 / const
      - weight_phases a_weighted_x (fun j => (ws j).1) r i c
      - weight_phases a_weighted_z (fun j => (ws j).2.2) r i c
  let new_y := weight_phases new_y0 fun j => 1 / (ws j).2.1
  let new_z0 : Stack := fun r i c =>
    phase_projs r i c * 1 / const
      - weight_phases a_weighted_y (fun j => (ws j).2.1) r i c
      - weight_phases a_weighted_x (fun j => (ws j).1) r i c
  let new_z := weight_phases new_z0 fun j => 1 / (ws j).2.2
  (new_x, new_y, new_z)

/-- IEEE-754-style value model for numpy float arithmetic: a finite real,
a signed infinity, or NaN. Rounding is not modelled — only the
special-value algebra of the elementwise operations used by
`update_weighted_proj_data` (numpy emits a RuntimeWarning on `1/0` and
produces `inf`/`nan`; it does not raise). -/
inductive NpVal
  | fin (x : ℝ)
  | posInf
  | negInf
  | nan

namespace NpVal

/-- Whether the value is an ordinary finite float. -/
def isFinite : NpVal → Bool
  | fin _ => true
  | _ => false

/-- IEEE negation. -/
def neg : NpVal → NpVal
  | fin x => fin (-x)
  | posInf => negInf
  | negInf => posInf
  | nan => nan

/-- IEEE addition (`inf + (-inf) = nan`, NaN propagates). -/
def add : NpVal → NpVal → NpVal
  | nan, _ => nan
  | _, nan => nan
  | fin x, fin y => fin (x + y)
  | fin _, posInf => posInf
  | fin _, negInf => negInf
  | posInf, fin _ => posInf
  | negInf, fin _ => negInf
  | posInf, posInf => posInf
  | negInf, negInf => negInf
  | posInf, negInf => nan
  | negInf, posInf => nan

/-- IEEE subtraction. -/
def sub (a b : NpVal) : NpVal := add a (neg b)

/-- IEEE multiplication (`0 * inf = nan`, NaN propagates). -/
def mul : NpVal → NpVal → NpVal
  | nan, _ => nan
  | _, nan => nan
  | fin x, fin y => fin (x * y)
  | fin x, posInf => if 0 < x then posInf else if x < 0 then negInf else nan
  | fin x, negInf => if 0 < x then negInf else if x < 0 then posInf else nan
  | posInf, fin y => if 0 < y then posInf else if y < 0 then negInf else nan
  | negInf, fin y => if 0 < y then negInf else if y < 0 then posInf else nan
  | posInf, posInf => posInf
  | posInf, negInf => negInf
  | negInf, posInf => negInf
  | negInf, negInf => posInf

/-- IEEE division by a finite float divisor (`x/0` is `±inf` for `x ≠ 0`
and `nan` for `x = 0`; `±inf/0 = ±inf`). -/
def divReal : NpVal → ℝ → NpVal
  | nan, _ => nan
  | fin x, y =>
    if y = 0 then (if 0 < x then posInf else if x < 0 then negInf else nan)
    else fin (x / y)
  | posInf, y => if y < 0 then negInf else posInf
  | negInf, y => if y < 0 then posInf else negInf

end NpVal

/-- A stack of numpy float values. -/
def NpStack : Type := ℕ → ℕ → ℕ → NpVal

/-- Embed an exact real stack as a stack of finite floats. -/
def liftStack (s : Stack) : NpStack := fun r i c => NpVal.fin (s r i c)

/-- `weight_phases` on the float-value model. -/
def weight_phases_np (projs : NpStack) (ws : ℕ → NpVal) : NpStack :=
  fun r i c => (projs r i c).mul (ws i)

/-- numpy elementwise `1/w`: `inf` at `w = 0` (RuntimeWarning, no
exception), else the finite reciprocal. -/
def np_inv (w : ℝ) : NpVal :=
  if w = 0 then NpVal.posInf else NpVal.fin (1 / w)

/-- `update_weighted_proj_data` on the float-value model, with the same
slice-wise algebra as the real version: the final `weight_phases(new,
1/ws[:,k])` multiplies by the possibly infinite reciprocal weight. -/
def update_weighted_proj_data_np
    (phase_projs a_weighted_x a_weighted_y a_weighted_z : NpStack)
    (ws : ℕ → ℝ × ℝ × ℝ) : NpStack × NpStack × NpStack :=
  let new_x0 : NpStack := fun r i c =>
    (((phase_projs r i c).mul (NpVal.fin 1)).divReal const).sub
        (weight_phases_np a_weighted_y (fun j => NpVal.fin (ws j).2.1) r i c)
      |>.sub (weight_phases_np a_weighted_z (fun j => NpVal.fin (ws j).2.2) r i c)
  let new_x := weight_phases_np new_x0 fun j => np_inv (ws j).1
  let new_y0 : NpStack := fun r i c =>
    (((phase_projs r i c).mul (NpVal.fin 1)).divReal const).sub
        (weight_phases_np a_weighted_x (fun j => NpVal.fin (ws j).1) r i c)
      |>.sub (weight_phases_np a_weighted_z (fun j => NpVal.fin (ws j).2.2) r i c)
  let new_y := weight_phases_np new_y0 fun j => np_inv (ws j).2.1
  let new_z0 : NpStack := fun r i c =>
    (((phase_projs r i c).mul (NpVal.fin 1)).divReal const).sub
        (weight_phases_np a_weighted_y (fun j => NpVal.fin (ws j).2.1) r i c)
      |>.sub (weight_phases_np a_weighted_x (fun j => NpVal.fin (ws j).1) r i c)
  let new_z := weight_phases_np new_z0 fun j => np_inv (ws j).2.2
  (new_x, new_y, new_z)

/-- `np.linspace(a, b, num)` with an integer sample count and
`endpoint=True`: `num` evenly spaced values from `a` to `b`
(`[a]` when `num = 1`, `[]` when `num = 0`). -/
def np_linspace (a b : ℝ) (num : ℕ) : List ℝ :=
  (List.range num).map fun (j : ℕ) =>
    if num = 1 then a else a + (j : ℝ) * (b - a) / ((num : ℝ) - 1)

/-- The threshold used by major iteration `m` (0-based) of
`iterative_update_algorithm`:
`possible_ts = np.linspace(tmin, tmax, n_full_iter-1)`, `thresh = tmax`
before the loop, and `thresh = possible_ts[-(i+1)]` in loop pass
`i = m - 1`. -/
def thresh_of_iter (tmin tmax : ℝ) (n_full_iter : ℕ) (m : ℕ) : ℝ :=
  let possible_ts := np_linspace tmin tmax (n_full_iter - 1)
  if m = 0 then tmax else possible_ts.getD (n_full_iter - 1 - m) tmax

/-- The angle subset selected by `recon_step`'s thresholding loop
(`for i,w in enumerate(ws): if abs(w) > thresh: keep slice i`),
as the list of kept tilt indices (`start` is the enumeration offset). -/
def select_thresh (ws : List ℝ) (thresh : ℝ) (start : ℕ) : List ℕ :=
  match ws with
  | [] => []
  | w :: rest =>
    if thresh < |w| then start :: select_thresh rest thresh (start + 1)
    else select_thresh rest thresh (start + 1)

/-- Mesh parameters `(p1, p2, nn)`: origin, extent and voxel counts. -/
structure MeshParams where
  p1 : ℝ × ℝ × ℝ
  p2 : ℝ × ℝ × ℝ
  nn : ℕ × ℕ × ℕ

/-- Failure of `recon_step` before the backend call: with an empty
thresholded slice list, `np.transpose(a_thresh, axes=[1,0,2])` raises
`ValueError: axes don't match array` (a 3-axis transpose of an empty
1-D array). -/
inductive ReconError
  | transposeAxesMismatch

/-- `recon_step(a_projs, ws, angles, mesh_params, thresh, ...)` from the
source, with the external SIRT solver (`generate_reconstruction`)
abstracted as `backend`: threshold out slices with `|w| ≤ thresh`, build
the projection vectors of the kept angles (`generate_vectors` maps
`get_astravec`), run the backend, then transpose/flip and rescale by the
voxel resolution `res = p2[0]/nn[0]`. -/
def recon_step (a_projs : Stack) (ws : List ℝ) (angles : List (ℝ × ℝ × ℝ))
    (mesh_params : MeshParams) (thresh : ℝ)
    (backend : Stack → List (Fin 12 → ℝ) → Volume) : Except ReconError Volume :=
  let res := mesh_params.p2.1 / (mesh_params.nn.1 : ℝ)
  let idxs := select_thresh ws thresh 0
  let angles_thresh := idxs.map fun i => angles.getD i (0, 0, 0)
  if idxs = [] then Except.error ReconError.transposeAxesMismatch
  else
    let a_thresh : Stack := fun r j c => a_projs r (idxs.getD j 0) c
    let vecs := angles_thresh.map fun a => get_astravec a.1 a.2.1 a.2.2
    let recon := backend a_thresh vecs
    Except.ok fun i j k => recon k (mesh_params.nn.2.1 - 1 - j) i / res

/-- Failure of `generate_angles`: `np.linspace` (numpy ≥ 1.18) raises
`TypeError` when the sample count is a Python float rather than an
integer. -/
inductive GenError
  | badCount

/-- A Python sample count: an `int` (e.g. `int(n_tilt/2)`) or a `float`
produced by true division (e.g. `n_tilt/4`). -/
inductive NpCount
  | int (n : ℕ)
  | float (q : ℚ)

/-- `np.linspace` as called by `generate_angles`: an integer count
produces the evenly spaced series, a float count raises `TypeError`
(numpy ≥ 1.18). -/
def np_linspace_checked (a b : ℝ) : NpCount → Except GenError (List ℝ)
  | NpCount.int n => Except.ok (np_linspace a b n)
  | NpCount.float _ => Except.error GenError.badCount

/-- `generate_angles(mode, n_tilt, alpha, beta, gamma, dist_n2, tilt2)`
from the source. The mode dispatch is the source's chain of
`if mode == '...'` tests (mutually exclusive string comparisons); a mode
string matching none of them leaves `angles = []` and the empty list is
returned. `rng i` supplies the i-th `np.random.rand()` draw of the
`rand` mode. Counts follow the source exactly: `int(...)` call sites
become integer counts, bare true divisions (the `quad`/`gamma < 90`
branch and the `dist`/`alpha == 90` reassignment) stay float counts. -/
def generate_angles (mode : String) (n_tilt : ℕ) (alpha beta gamma : ℝ)
    (dist_n2 : ℕ) (tilt2 : String) (rng : ℕ → ℝ) :
    Except GenError (List (ℝ × ℝ × ℝ)) :=
  if mode = "x" then do
    let s ← np_linspace_checked (-alpha) alpha (NpCount.int n_tilt)
    Except.ok (s.map fun x => (x, (0 : ℝ), (0 : ℝ)))
  else if mode = "y" then
    if tilt2 = "beta" then do
      let s ← np_linspace_checked (-beta) beta (NpCount.int n_tilt)
      Except.ok (s.map fun y => ((0 : ℝ), y, (0 : ℝ)))
    else if tilt2 = "gamma" then do
      let az : ℝ := if (90 : ℝ) ≤ gamma then 90 else gamma
      let s ← np_linspace_checked (-alpha) alpha (NpCount.int n_tilt)
      Except.ok (s.map fun x => (x, (0 : ℝ), az))
    else Except.ok []
  else if mode = "dual" then do
    let s1 ← np_linspace_checked (-alpha) alpha (NpCount.int (n_tilt / 2))
    let first := s1.map fun x => (x, (0 : ℝ), (0 : ℝ))
    if tilt2 = "beta" then do
      let s2 ← np_linspace_checked (-beta) beta (NpCount.int (n_tilt / 2))
      Except.ok (first ++ s2.map fun y => ((0 : ℝ), y, (0 : ℝ)))
    else if tilt2 = "gamma" then do
      let az : ℝ := if (90 : ℝ) ≤ gamma then 90 else gamma
      let s2 ← np_linspace_checked (-alpha) alpha (NpCount.int (n_tilt / 2))
      Except.ok (first ++ s2.map fun x => (x, (0 : ℝ), az))
    else Except.ok first
  else if mode = "quad" then
    if tilt2 = "beta" then do
      let s1 ← np_linspace_checked (-alpha) alpha (NpCount.int (n_tilt / 4))
      let s2 ← np_linspace_checked (-beta) beta (NpCount.int (n_tilt / 4))
      let s3 ← np_linspace_checked (-alpha) alpha (NpCount.int (n_tilt / 4))
      let s4 ← np_linspace_checked (-alpha) alpha (NpCount.int (n_tilt / 4))
      Except.ok ((s1.map fun x => (x, (0 : ℝ), (0 : ℝ)))
        ++ (s2.map fun y => ((0 : ℝ), y, (0 : ℝ)))
        ++ (s3.map fun x => (x, beta, (0 : ℝ)))
        ++ (s4.map fun x => (x, -beta, (0 : ℝ))))
    else if tilt2 = "gamma" then
      if (90 : ℝ) ≤ gamma then do
        let s1 ← np_linspace_checked (-alpha) alpha (NpCount.int (n_tilt / 4))
        let s2 ← np_linspace_checked (-alpha) alpha (NpCount.int (n_tilt / 4))
        let s3 ← np_linspace_checked (-alpha) alpha (NpCount.int (n_tilt / 4))
        let s4 ← np_linspace_checked (-alpha) alpha (NpCount.int (n_tilt / 4))
        Except.ok ((s1.map fun x => (x, (0 : ℝ), (0 : ℝ)))
          ++ (s2.map fun x => (x, (0 : ℝ), (90 : ℝ)))
          ++ (s3.map fun x => (x, (0 : ℝ), (45 : ℝ)))
          ++ (s4.map fun x => (x, (0 : ℝ), (-45 : ℝ))))
      else do
        let s1 ← np_linspace_checked (-alpha) alpha (NpCount.float ((n_tilt : ℚ) / 4))
        let s2 ← np_linspace_checked (-alpha) alpha (NpCount.float ((n_tilt : ℚ) / 4))
        let s3 ← np_linspace_checked (-alpha) alpha (NpCount.float ((n_tilt : ℚ) / 4))
        let s4 ← np_linspace_checked (-alpha) alpha (NpCount.float ((n_tilt : ℚ) / 4))
        Except.ok ((s1.map fun x => (x, (0 : ℝ), gamma))
          ++ (s2.map fun x => (x, (0 : ℝ), -gamma))
          ++ (s3.map fun x => (x, (0 : ℝ), gamma / 3))
          ++ (s4.map fun x => (x, (0 : ℝ), -gamma / 3)))
    else Except.ok []
  else if mode = "rand" then
    if tilt2 = "beta" then
      Except.ok ((List.range n_tilt).map fun i =>
        (rng (2 * i) * alpha * 2 - alpha, rng (2 * i + 1) * beta * 2 - beta, (0 : ℝ)))
    else if tilt2 = "gamma" then
      Except.ok ((List.range n_tilt).map fun i =>
        (rng (2 * i) * alpha * 2 - alpha, (0 : ℝ), rng (2 * i + 1) * gamma * 2 - gamma))
    else Except.ok []
  else if mode = "sync" then
    if tilt2 = "beta" then do
      let xs ← np_linspace_checked (-alpha) alpha (NpCount.int (n_tilt / 2))
      let ys ← np_linspace_checked (-beta) beta (NpCount.int (n_tilt / 2))
      Except.ok (List.zipWith (fun a y => (a, y, (0 : ℝ))) xs ys
        ++ List.zipWith (fun a y => (a, -y, (0 : ℝ))) xs ys)
    else if tilt2 = "gamma" then do
      let xs ← np_linspace_checked (-alpha) alpha (NpCount.int (n_tilt / 2))
      let zs ← np_linspace_checked (-gamma) gamma (NpCount.int (n_tilt / 2))
      Except.ok (List.zipWith (fun a z => (a, (0 : ℝ), z)) xs zs
        ++ List.zipWith (fun a z => (a, (0 : ℝ), -z)) xs zs)
    else Except.ok []
  else if mode = "sx" then
    if tilt2 = "beta" then do
      let xs ← np_linspace_checked (-alpha) alpha (NpCount.int n_tilt)
      let ys ← np_linspace_checked (-beta) beta (NpCount.int n_tilt)
      Except.ok (List.zipWith (fun a y => (a, y, (0 : ℝ))) xs ys)
    else if tilt2 = "gamma" then do
      let xs ← np_linspace_checked (-alpha) alpha (NpCount.int n_tilt)
      let zs ← np_linspace_checked (-gamma) gamma (NpCount.int n_tilt)
      Except.ok (List.zipWith (fun a z => (a, (0 : ℝ), z)) xs zs)
    else Except.ok []
  else if mode = "dist" then do
    let ax0 ← np_linspace_checked (-alpha) alpha (NpCount.int (n_tilt / dist_n2))
    let axs ← if alpha = (90 : ℝ) then do
        let t ← np_linspace_checked (-90) 90
          (NpCount.float ((n_tilt : ℚ) / (dist_n2 : ℚ) + 1))
        Except.ok t.reverse
      else Except.ok ax0
    if tilt2 = "beta" then do
      let ays ← np_linspace_checked (-beta) beta (NpCount.int dist_n2)
      Except.ok (axs.flatMap fun x => ays.map fun y => (x, y, (0 : ℝ)))
    else if tilt2 = "gamma" then
      if gamma < 90 then do
        let azs ← np_linspace_checked (-gamma) gamma (NpCount.int dist_n2)
        Except.ok (axs.flatMap fun x => azs.map fun z => (x, (0 : ℝ), z))
      else do
        let azs ← np_linspace_checked (-90) 90 (NpCount.int (dist_n2 + 1))
        Except.ok (axs.flatMap fun x => azs.dropLast.map fun z => (x, (0 : ℝ), z))
    else Except.ok []
  else Except.ok []

/-- Closed form of the weight triple: the third row of the intrinsic matrix
`Rz⬝Ry⬝Rx`. -/
lemma calculate_A_contribution_eq (ax ay az : ℝ) :
    calculate_A_contribution ax ay az =
      (-Real.sin (deg2rad ay),
       Real.cos (deg2rad ay) * Real.sin (deg2rad ax),
       Real.cos (deg2rad ay) * Real.cos (deg2rad ax)) := by
  simp [calculate_A_contribution, rotation_matrix, mrotx, mroty, mrotz,
    Matrix.mulVec, Matrix.dotProduct, Matrix.mul_apply, Fin.sum_univ_three]

/-- The weight triple always has unit Euclidean norm: it is the third row of
an orthogonal matrix. -/
lemma weight_norm_sq_eq_one (ax ay az : ℝ) :
    (calculate_A_contribution ax ay az).1 ^ 2 +
      (calculate_A_contribution ax ay az).2.1 ^ 2 +
      (calculate_A_contribution ax ay az).2.2 ^ 2 = 1 := by
  rw [calculate_A_contribution_eq]
  have hx := Real.sin_sq_add_cos_sq (deg2rad ax)
  have hy := Real.sin_sq_add_cos_sq (deg2rad ay)
  ring_nf
  nlinarith [hx, hy]

lemma mrotx_transpose (t : ℝ) :
    (mrotx t)ᵀ =
      !![1, 0, 0; 0, Real.cos t, Real.sin t; 0, -Real.sin t, Real.cos t] := by
  ext i j
  fin_cases i <;> fin_cases j <;> rfl

lemma mroty_transpose (t : ℝ) :
    (mroty t)ᵀ =
      !![Real.cos t, 0, -Real.sin t; 0, 1, 0; Real.sin t, 0, Real.cos t] := by
  ext i j
  fin_cases i <;> fin_cases j <;> rfl

lemma mrotz_transpose (t : ℝ) :
    (mrotz t)ᵀ =
      !![Real.cos t, Real.sin t, 0; -Real.sin t, Real.cos t, 0; 0, 0, 1] := by
  ext i j
  fin_cases i <;> fin_cases j <;> rfl

lemma mrotx_orthogonal (t : ℝ) : (mrotx t)ᵀ * mrotx t = 1 := by
  rw [mrotx_transpose, mrotx, Matrix.mul_fin_three, Matrix.one_fin_three]
  ext i j
  fin_cases i <;> fin_cases j <;>
    simp [Matrix.vecHead, Matrix.vecTail] <;> nlinarith [Real.sin_sq_add_cos_sq t]

lemma mroty_orthogonal (t : ℝ) : (mroty t)ᵀ * mroty t = 1 := by
  rw [mroty_transpose, mroty, Matrix.mul_fin_three, Matrix.one_fin_three]
  ext i j
  fin_cases i <;> fin_cases j <;>
    simp [Matrix.vecHead, Matrix.vecTail] <;> nlinarith [Real.sin_sq_add_cos_sq t]

lemma mrotz_orthogonal (t : ℝ) : (mrotz t)ᵀ * mrotz t = 1 := by
  rw [mrotz_transpose, mrotz, Matrix.mul_fin_three, Matrix.one_fin_three]
  ext i j
  fin_cases i <;> fin_cases j <;>
    simp [Matrix.vecHead, Matrix.vecTail] <;> nlinarith [Real.sin_sq_add_cos_sq t]

lemma transpose_mul_self_one {A B : Matrix (Fin 3) (Fin 3) ℝ}
    (hA : Aᵀ * A = 1) (hB : Bᵀ * B = 1) : (A * B)ᵀ * (A * B) = 1 := by
  rw [Matrix.transpose_mul, Matrix.mul_assoc, ← Matrix.mul_assoc Aᵀ A B, hA,
    Matrix.one_mul, hB]

lemma mulVec_dot (M : Matrix (Fin 3) (Fin 3) ℝ) (h : Mᵀ * M = 1)
    (a b : Fin 3 → ℝ) : M.mulVec a ⬝ᵥ M.mulVec b = a ⬝ᵥ b := by
  rw [Matrix.dotProduct_mulVec, ← Matrix.mulVec_transpose, Matrix.mulVec_mulVec,
    h, Matrix.one_mulVec]

lemma extrinsic_orthogonal (ax ay az : ℝ) :
    (rotation_matrix ax ay az false)ᵀ * rotation_matrix ax ay az false = 1 := by
  show (mrotx (deg2rad ax) * mroty (deg2rad ay) * mrotz (deg2rad az))ᵀ * _ = 1
  exact transpose_mul_self_one
    (transpose_mul_self_one (mrotx_orthogonal _) (mroty_orthogonal _))
    (mrotz_orthogonal _)

/-- C3 (counterexample to the claim): no rotation triple in any angle scheme
produces a weight triple with `wx² + wy² + wz² ≠ 1`; the claimed
non-normalized triple does not exist. -/
theorem no_unnormalized_weights :
    ¬ ∃ (angles : List (ℝ × ℝ × ℝ)) (w : ℝ × ℝ × ℝ),
        w ∈ calculate_A_contributions angles ∧
        w.1 ^ 2 + w.2.1 ^ 2 + w.2.2 ^ 2 ≠ 1 := by
  rintro ⟨angles, w, hw, hne⟩
  rcases List.mem_map.mp hw with ⟨a, -, rfl⟩
  exact hne (weight_norm_sq_eq_one a.1 a.2.1 a.2.2)

/-- C3 (amended): for every rotation triple of every angle scheme, the weight
triple produced by `calculate_A_contributions` satisfies
`wx² + wy² + wz² = 1` exactly — the weights are the third row of an
orthogonal rotation matrix, so normalization is guaranteed. -/
theorem weights_normalized (angles : List (ℝ × ℝ × ℝ)) (w : ℝ × ℝ × ℝ)
    (hw : w ∈ calculate_A_contributions angles) :
    w.1 ^ 2 + w.2.1 ^ 2 + w.2.2 ^ 2 = 1 := by
  rcases List.mem_map.mp hw with ⟨a, -, rfl⟩
  exact weight_norm_sq_eq_one a.1 a.2.1 a.2.2

/-- Witness for the amended C3 theorem at the concrete scheme `[(0,0,0)]`. -/
theorem weights_normalized_witness :
    ((0 : ℝ), (0 : ℝ), (1 : ℝ)) ∈ calculate_A_contributions [((0 : ℝ), 0, 0)] ∧
      ((0 : ℝ), (0 : ℝ), (1 : ℝ)).1 ^ 2 + ((0 : ℝ), (0 : ℝ), (1 : ℝ)).2.1 ^ 2 +
        ((0 : ℝ), (0 : ℝ), (1 : ℝ)).2.2 ^ 2 = 1 := by
  have hm : ((0 : ℝ), (0 : ℝ), (1 : ℝ)) ∈ calculate_A_contributions [((0 : ℝ), 0, 0)] := by
    simp [calculate_A_contributions, calculate_A_contribution_eq, deg2rad]
  exact ⟨hm, weights_normalized _ _ hm⟩

/-- C9: the weight triple computed by `calculate_A_contributions` is the
third row of the intrinsic rotation matrix `Rz·Ry·Rx`; in particular
`wz = cos(ax)·cos(ay)`, independent of the z angle `az`. -/
theorem contribution_third_row (ax ay az : ℝ) :
    calculate_A_contribution ax ay az =
      (rotation_matrix ax ay az true 2 0,
       rotation_matrix ax ay az true 2 1,
       rotation_matrix ax ay az true 2 2) ∧
    (calculate_A_contribution ax ay az).2.2 =
      Real.cos (deg2rad ax) * Real.cos (deg2rad ay) ∧
    ∀ az2 : ℝ, (calculate_A_contribution ax ay az2).2.2 =
      (calculate_A_contribution ax ay az).2.2 := by
  refine ⟨?_, ?_, ?_⟩
  · simp [calculate_A_contribution, rotation_matrix, mrotx, mroty, mrotz,
      Matrix.mulVec, Matrix.dotProduct, Matrix.mul_apply, Fin.sum_univ_three]
  · rw [calculate_A_contribution_eq]; ring
  · intro az2; rw [calculate_A_contribution_eq, calculate_A_contribution_eq]

/-- C5: `get_astravec` is the 12-component concatenation `[r, d, u, v]` with
`r = M·(0,0,1)·(−1)`, `d = (0,0,0)`, `u = M·(1,0,0)`, `v = M·(0,1,0)`,
where `M` is the extrinsic matrix `Rx·Ry·Rz` evaluated at `(ax, −ay, az)`. -/
theorem astravec_structure (ax ay az : ℝ) :
    get_astravec ax ay az =
      ![(mrotx (deg2rad ax) * mroty (deg2rad (-ay)) * mrotz (deg2rad az)).mulVec ![0, 0, 1] 0 * (-1),
        (mrotx (deg2rad ax) * mroty (deg2rad (-ay)) * mrotz (deg2rad az)).mulVec ![0, 0, 1] 1 * (-1),
        (mrotx (deg2rad ax) * mroty (deg2rad (-ay)) * mrotz (deg2rad az)).mulVec ![0, 0, 1] 2 * (-1),
        0, 0, 0,
        (mrotx (deg2rad ax) * mroty (deg2rad (-ay)) * mrotz (deg2rad az)).mulVec ![1, 0, 0] 0,
        (mrotx (deg2rad ax) * mroty (deg2rad (-ay)) * mrotz (deg2rad az)).mulVec ![1, 0, 0] 1,
        (mrotx (deg2rad ax) * mroty (deg2rad (-ay)) * mrotz (deg2rad az)).mulVec ![1, 0, 0] 2,
        (mrotx (deg2rad ax) * mroty (deg2rad (-ay)) * mrotz (deg2rad az)).mulVec ![0, 1, 0] 0,
        (mrotx (deg2rad ax) * mroty (deg2rad (-ay)) * mrotz (deg2rad az)).mulVec ![0, 1, 0] 1,
        (mrotx (deg2rad ax) * mroty (deg2rad (-ay)) * mrotz (deg2rad az)).mulVec ![0, 1, 0] 2] := by
  funext i
  fin_cases i <;> rfl

/-- C6: in the projection vector built by `get_astravec`, the detector basis
vectors `u` (components 6–8) and `v` (components 9–11) are exactly
orthonormal, and the ray direction `r` (components 0–2) is exactly
orthogonal to both. -/
theorem astravec_orthonormal (ax ay az : ℝ) :
    (get_astravec ax ay az 6 * get_astravec ax ay az 9 +
        get_astravec ax ay az 7 * get_astravec ax ay az 10 +
        get_astravec ax ay az 8 * get_astravec ax ay az 11 = 0) ∧
    (get_astravec ax ay az 6 ^ 2 + get_astravec ax ay az 7 ^ 2 +
        get_astravec ax ay az 8 ^ 2 = 1) ∧
    (get_astravec ax ay az 9 ^ 2 + get_astravec ax ay az 10 ^ 2 +
        get_astravec ax ay az 11 ^ 2 = 1) ∧
    (get_astravec ax ay az 0 * get_astravec ax ay az 6 +
        get_astravec ax ay az 1 * get_astravec ax ay az 7 +
        get_astravec ax ay az 2 * get_astravec ax ay az 8 = 0) ∧
    (get_astravec ax ay az 0 * get_astravec ax ay az 9 +
        get_astravec ax ay az 1 * get_astravec ax ay az 10 +
        get_astravec ax ay az 2 * get_astravec ax ay az 11 = 0) := by
  have hM := extrinsic_orthogonal ax (-ay) az
  have huu := mulVec_dot _ hM ![1, 0, 0] ![1, 0, 0]
  have hvv := mulVec_dot _ hM ![0, 1, 0] ![0, 1, 0]
  have huv := mulVec_dot _ hM ![1, 0, 0] ![0, 1, 0]
  have hru := mulVec_dot _ hM ![0, 0, 1] ![1, 0, 0]
  have hrv := mulVec_dot _ hM ![0, 0, 1] ![0, 1, 0]
  simp [Matrix.dotProduct, Fin.sum_univ_three] at huu hvv huv hru hrv
  have e0 : get_astravec ax ay az 0 =
      (rotation_matrix ax (-ay) az false).mulVec ![0, 0, 1] 0 * (-1) := rfl
  have e1 : get_astravec ax ay az 1 =
      (rotation_matrix ax (-ay) az false).mulVec ![0, 0, 1] 1 * (-1) := rfl
  have e2 : get_astravec ax ay az 2 =
      (rotation_matrix ax (-ay) az false).mulVec ![0, 0, 1] 2 * (-1) := rfl
  have e6 : get_astravec ax ay az 6 =
      (rotation_matrix ax (-ay) az false).mulVec ![1, 0, 0] 0 := rfl
  have e7 : get_astravec ax ay az 7 =
      (rotation_matrix ax (-ay) az false).mulVec ![1, 0, 0] 1 := rfl
  have e8 : get_astravec ax ay az 8 =
      (rotation_matrix ax (-ay) az false).mulVec ![1, 0, 0] 2 := rfl
  have e9 : get_astravec ax ay az 9 =
      (rotation_matrix ax (-ay) az false).mulVec ![0, 1, 0] 0 := rfl
  have e10 : get_astravec ax ay az 10 =
      (rotation_matrix ax (-ay) az false).mulVec ![0, 1, 0] 1 := rfl
  have e11 : get_astravec ax ay az 11 =
      (rotation_matrix ax (-ay) az false).mulVec ![0, 1, 0] 2 := rfl
  rw [e0, e1, e2, e6, e7, e8, e9, e10, e11]
  refine ⟨by linear_combination huv, by linear_combination huu,
    by linear_combination hvv, by linear_combination (-1 : ℝ) * hru,
    by linear_combination (-1 : ℝ) * hrv⟩

lemma const_ne_zero : const ≠ 0 := by
  have hpi : (0 : ℝ) < Real.pi := Real.pi_pos
  have hphi : (0 : ℝ) < magFluxQuantum := by norm_num [magFluxQuantum]
  have h1 : -Real.pi / magFluxQuantum < 0 :=
    div_neg_of_neg_of_pos (by linarith) hphi
  have h2 : -Real.pi / magFluxQuantum / (2 * Real.pi) < 0 :=
    div_neg_of_neg_of_pos h1 (by linarith)
  exact ne_of_lt h2

/-- C1: if the phase stack is exactly `const·(wx·Ax + wy·Ay + wz·Az)` per
angle and all weights are non-zero, the decontamination step
`update_weighted_proj_data` returns exactly `(Ax, Ay, Az)`, and re-mixing
its output with the same weights reproduces the phase data. -/
theorem decontamination_round_trip (Ax Ay Az : Stack) (ws : ℕ → ℝ × ℝ × ℝ)
    (hw : ∀ i, (ws i).1 ≠ 0 ∧ (ws i).2.1 ≠ 0 ∧ (ws i).2.2 ≠ 0)
    (phase : Stack)
    (hphase : ∀ r i c, phase r i c =
      const * ((ws i).1 * Ax r i c + (ws i).2.1 * Ay r i c + (ws i).2.2 * Az r i c)) :
    update_weighted_proj_data phase Ax Ay Az ws = (Ax, Ay, Az) ∧
    ∀ r i c,
      const * ((ws i).1 * (update_weighted_proj_data phase Ax Ay Az ws).1 r i c
        + (ws i).2.1 * (update_weighted_proj_data phase Ax Ay Az ws).2.1 r i c
        + (ws i).2.2 * (update_weighted_proj_data phase Ax Ay Az ws).2.2 r i c)
      = phase r i c := by
  have hc := const_ne_zero
  have hx : (update_weighted_proj_data phase Ax Ay Az ws).1 = Ax := by
    funext r i c
    obtain ⟨h0, h1, h2⟩ := hw i
    show (phase r i c * 1 / const
        - Ay r i c * (ws i).2.1 - Az r i c * (ws i).2.2) * (1 / (ws i).1)
      = Ax r i c
    rw [hphase r i c]
    field_simp
    ring
  have hy : (update_weighted_proj_data phase Ax Ay Az ws).2.1 = Ay := by
    funext r i c
    obtain ⟨h0, h1, h2⟩ := hw i
    show (phase r i c * 1 / const
        - Ax r i c * (ws i).1 - Az r i c * (ws i).2.2) * (1 / (ws i).2.1)
      = Ay r i c
    rw [hphase r i c]
    field_simp
    ring
  have hz : (update_weighted_proj_data phase Ax Ay Az ws).2.2 = Az := by
    funext r i c
    obtain ⟨h0, h1, h2⟩ := hw i
    show (phase r i c * 1 / const
        - Ay r i c * (ws i).2.1 - Ax r i c * (ws i).1) * (1 / (ws i).2.2)
      = Az r i c
    rw [hphase r i c]
    field_simp
    ring
  refine ⟨?_, ?_⟩
  · rw [show update_weighted_proj_data phase Ax Ay Az ws =
      ((update_weighted_proj_data phase Ax Ay Az ws).1,
       (update_weighted_proj_data phase Ax Ay Az ws).2.1,
       (update_weighted_proj_data phase Ax Ay Az ws).2.2) from rfl, hx, hy, hz]
  · intro r i c
    rw [hx, hy, hz]
    exact (hphase r i c).symm

/-- Witness for C1 at a concrete constant phantom and weight triple. -/
theorem decontamination_round_trip_witness :
    update_weighted_proj_data
        (fun _ _ _ => const * ((1 / 2 : ℝ) * 1 + (1 / 3 : ℝ) * 1 + (1 / 4 : ℝ) * 1))
        (fun _ _ _ => 1) (fun _ _ _ => 1) (fun _ _ _ => 1)
        (fun _ => ((1 / 2 : ℝ), (1 / 3 : ℝ), (1 / 4 : ℝ))) =
      (fun _ _ _ => (1 : ℝ), fun _ _ _ => (1 : ℝ), fun _ _ _ => (1 : ℝ)) :=
  (decontamination_round_trip (fun _ _ _ => 1) (fun _ _ _ => 1) (fun _ _ _ => 1)
    (fun _ => ((1 / 2 : ℝ), (1 / 3 : ℝ), (1 / 4 : ℝ)))
    (fun _ => by norm_num)
    (fun _ _ _ => const * ((1 / 2 : ℝ) * 1 + (1 / 3 : ℝ) * 1 + (1 / 4 : ℝ) * 1))
    (fun _ _ _ => rfl)).1

lemma np_linspace_getD (a b : ℝ) (k j : ℕ) (hj : j < k) (d : ℝ) :
    (np_linspace a b k).getD j d =
      if k = 1 then a else a + (j : ℝ) * (b - a) / ((k : ℝ) - 1) := by
  rw [np_linspace, List.getD_eq_getElem?_getD, List.getElem?_map,
    List.getElem?_range hj]
  rfl

/-- C2 (amended): for `n_full_iter = nmaj ≥ 3` and `tmin ≤ tmax`, the first
major iteration uses `tmax`; iterations `m = 1 .. nmaj-1` walk the
`nmaj-1`-point linear schedule from `tmin` to `tmax` backwards (so the
second iteration repeats `tmax` and the last uses `tmin`); the whole
threshold sequence is non-increasing.  (For `nmaj = 2` the single
schedule point is `np.linspace(tmin, tmax, 1) = [tmin]`, so the second —
last — iteration uses `tmin`, not `tmax` as claimed.) -/
theorem thresh_schedule (tmin tmax : ℝ) (hle : tmin ≤ tmax) (nmaj : ℕ)
    (h3 : 3 ≤ nmaj) :
    thresh_of_iter tmin tmax nmaj 0 = tmax ∧
    thresh_of_iter tmin tmax nmaj 1 = tmax ∧
    thresh_of_iter tmin tmax nmaj (nmaj - 1) = tmin ∧
    (∀ m, 1 ≤ m → m ≤ nmaj - 1 → thresh_of_iter tmin tmax nmaj m =
      (np_linspace tmin tmax (nmaj - 1)).getD (nmaj - 1 - m) tmax) ∧
    (∀ m, m + 1 ≤ nmaj - 1 →
      thresh_of_iter tmin tmax nmaj (m + 1) ≤ thresh_of_iter tmin tmax nmaj m) := by
  have hk2 : 2 ≤ nmaj - 1 := by omega
  have hk1 : nmaj - 1 ≠ 1 := by omega
  have hkR : (2 : ℝ) ≤ ((nmaj - 1 : ℕ) : ℝ) := by exact_mod_cast hk2
  have hkne : ((nmaj - 1 : ℕ) : ℝ) - 1 ≠ 0 := by linarith
  have hval : ∀ j : ℕ, j < nmaj - 1 →
      (np_linspace tmin tmax (nmaj - 1)).getD j tmax =
        tmin + (j : ℝ) * (tmax - tmin) / (((nmaj - 1 : ℕ) : ℝ) - 1) := by
    intro j hj
    rw [np_linspace_getD tmin tmax (nmaj - 1) j hj, if_neg hk1]
  have h0 : thresh_of_iter tmin tmax nmaj 0 = tmax := by
    simp [thresh_of_iter]
  have hsched : ∀ m, 1 ≤ m → m ≤ nmaj - 1 → thresh_of_iter tmin tmax nmaj m =
      (np_linspace tmin tmax (nmaj - 1)).getD (nmaj - 1 - m) tmax := by
    intro m hm _
    have : m ≠ 0 := by omega
    simp [thresh_of_iter, this]
  have h1 : thresh_of_iter tmin tmax nmaj 1 = tmax := by
    rw [hsched 1 le_rfl (by omega), hval (nmaj - 1 - 1) (by omega)]
    have hcast : ((nmaj - 1 - 1 : ℕ) : ℝ) = ((nmaj - 1 : ℕ) : ℝ) - 1 := by
      have h11 : (1 : ℕ) ≤ nmaj - 1 := by omega
      push_cast [h11]
      ring
    rw [hcast]
    have hgen : ∀ t : ℝ, t ≠ 0 → tmin + t * (tmax - tmin) / t = tmax := by
      intro t ht
      rw [mul_comm, mul_div_assoc, div_self ht, mul_one]
      ring
    exact hgen _ hkne
  have hlast : thresh_of_iter tmin tmax nmaj (nmaj - 1) = tmin := by
    rw [hsched (nmaj - 1) (by omega) le_rfl]
    have : nmaj - 1 - (nmaj - 1) = 0 := by omega
    rw [this, hval 0 (by omega)]
    simp
  refine ⟨h0, h1, hlast, hsched, ?_⟩
  intro m hm1
  rcases Nat.eq_zero_or_pos m with hm0 | hmpos
  · subst hm0
    rw [h0, h1]
  · rw [hsched (m + 1) (by omega) hm1, hsched m (by omega) (by omega),
      hval (nmaj - 1 - (m + 1)) (by omega), hval (nmaj - 1 - m) (by omega)]
    have hjle : ((nmaj - 1 - (m + 1) : ℕ) : ℝ) ≤ ((nmaj - 1 - m : ℕ) : ℝ) :=
      Nat.cast_le.mpr (Nat.sub_le_sub_left (Nat.le_succ m) (nmaj - 1))
    have hden : (0 : ℝ) < ((nmaj - 1 : ℕ) : ℝ) - 1 := by linarith
    have hnum : (0 : ℝ) ≤ tmax - tmin := by linarith
    gcongr

/-- Witness for the amended C2 theorem at `tmin = 0`, `tmax = 1`,
`nmaj = 4`: the last major iteration uses `tmin`. -/
theorem thresh_schedule_witness :
    (0 : ℝ) ≤ 1 ∧ thresh_of_iter (0 : ℝ) 1 4 3 = 0 :=
  ⟨by norm_num, (thresh_schedule 0 1 (by norm_num) 4 (by norm_num)).2.2.1⟩

/-- C2 (counterexample to the claim as stated): with `nmaj = 2`,
`(tmin, tmax) = (0, 1)`, the second (and last) major iteration uses
threshold `0 = tmin`, not `tmax = 1` as the claim's schedule (second
iteration repeats `tmax`) requires. -/
theorem thresh_schedule_nmaj_two :
    thresh_of_iter (0 : ℝ) 1 2 1 = 0 ∧ thresh_of_iter (0 : ℝ) 1 2 1 ≠ 1 := by
  have : thresh_of_iter (0 : ℝ) 1 2 1 = 0 := by
    simp [thresh_of_iter, np_linspace]
  exact ⟨this, by rw [this]; norm_num⟩

lemma select_thresh_eq_nil (ws : List ℝ) (thresh : ℝ)
    (h : ∀ w ∈ ws, ¬ thresh < |w|) : ∀ s, select_thresh ws thresh s = [] := by
  induction ws with
  | nil => intro s; rfl
  | cons w rest ih =>
    intro s
    rw [select_thresh, if_neg (h w (List.mem_cons_self w rest))]
    exact ih (fun x hx => h x (List.mem_cons_of_mem w hx)) (s + 1)

lemma mem_select_thresh (ws : List ℝ) (thresh : ℝ) :
    ∀ s n, n ∈ select_thresh ws thresh s →
      ∃ j w, n = s + j ∧ ws[j]? = some w ∧ thresh < |w| := by
  induction ws with
  | nil => intro s n h; simp [select_thresh] at h
  | cons w rest ih =>
    intro s n h
    rw [select_thresh] at h
    by_cases hc : thresh < |w|
    · rw [if_pos hc] at h
      rcases List.mem_cons.mp h with h0 | h1
      · exact ⟨0, w, by omega, by simp, hc⟩
      · obtain ⟨j, w2, hn, hj, hw2⟩ := ih (s + 1) n h1
        exact ⟨j + 1, w2, by omega, by simpa using hj, hw2⟩
    · rw [if_neg hc] at h
      obtain ⟨j, w2, hn, hj, hw2⟩ := ih (s + 1) n h
      exact ⟨j + 1, w2, by omega, by simpa using hj, hw2⟩

/-- C4: when the threshold strictly exceeds `|w|` for every angle, the
selected subset is empty and `recon_step` fails before the backend is
invoked: the result is the transpose error, identically for every
backend. -/
theorem recon_step_empty_selection_fails (a_projs : Stack) (ws : List ℝ)
    (angles : List (ℝ × ℝ × ℝ)) (mesh_params : MeshParams) (thresh : ℝ)
    (hw : ∀ w ∈ ws, |w| < thresh) :
    ∀ backend, recon_step a_projs ws angles mesh_params thresh backend =
      Except.error ReconError.transposeAxesMismatch := by
  intro backend
  have hnil := select_thresh_eq_nil ws thresh (fun w hwm => lt_asymm (hw w hwm)) 0
  rw [recon_step]
  simp [hnil]

/-- Witness for C4 at the one-angle scheme with weight `0.5` and
threshold `1`. -/
theorem recon_step_empty_selection_fails_witness :
    (∀ w ∈ [(0.5 : ℝ)], |w| < 1) ∧
      recon_step (fun _ _ _ => 0) [(0.5 : ℝ)] [((0 : ℝ), 0, 0)]
          ⟨(0, 0, 0), (1, 1, 1), (1, 1, 1)⟩ 1 (fun _ _ => fun _ _ _ => 0) =
        Except.error ReconError.transposeAxesMismatch := by
  have hmem : ∀ w ∈ [(0.5 : ℝ)], |w| < 1 := by
    intro w hw
    rw [List.mem_singleton] at hw
    subst hw
    rw [abs_of_pos (by norm_num)]
    norm_num
  exact ⟨hmem, recon_step_empty_selection_fails (fun _ _ _ => 0) [(0.5 : ℝ)]
    [((0 : ℝ), 0, 0)] ⟨(0, 0, 0), (1, 1, 1), (1, 1, 1)⟩ 1 hmem
    (fun _ _ => fun _ _ _ => 0)⟩

lemma fin_chain_eq (p a w1 b w2 : ℝ) :
    ((((NpVal.fin p).mul (NpVal.fin 1)).divReal const).sub
        ((NpVal.fin a).mul (NpVal.fin w1))).sub
        ((NpVal.fin b).mul (NpVal.fin w2))
      = NpVal.fin (p * 1 / const - a * w1 - b * w2) := by
  have hfinsub : ∀ x y : ℝ, (NpVal.fin x).sub (NpVal.fin y) = NpVal.fin (x - y) := by
    intro x y
    rw [NpVal.sub, NpVal.neg, NpVal.add]
    ring_nf
  rw [show (NpVal.fin p).mul (NpVal.fin 1) = NpVal.fin (p * 1) from rfl]
  rw [show (NpVal.fin (p * 1)).divReal const = NpVal.fin (p * 1 / const) by
    rw [NpVal.divReal, if_neg const_ne_zero]]
  rw [show (NpVal.fin a).mul (NpVal.fin w1) = NpVal.fin (a * w1) from rfl]
  rw [show (NpVal.fin b).mul (NpVal.fin w2) = NpVal.fin (b * w2) from rfl]
  rw [hfinsub, hfinsub]

lemma fin_mul_inv_zero_nonfinite (q : ℝ) :
    ((NpVal.fin q).mul (np_inv 0)).isFinite = false := by
  rw [show np_inv 0 = NpVal.posInf from if_pos rfl]
  simp only [NpVal.mul]
  split_ifs <;> rfl

/-- C10: a zero weight for any of the three components at tilt `i0` makes
`update_weighted_proj_data` (float model) multiply that component's
slices by `1/0 = inf` without raising, so every value of that
component's slices at that tilt is non-finite (`inf`, `-inf` or `nan`);
the zero-weight angle is only removed later by `recon_step`'s
thresholding, which never selects an angle of weight `0` for any
threshold `≥ 0`. -/
theorem zero_weight_nonfinite_slices (phase Ax Ay Az : Stack)
    (ws : ℕ → ℝ × ℝ × ℝ) (i0 : ℕ) :
    ((ws i0).1 = 0 → ∀ r c,
      ((update_weighted_proj_data_np (liftStack phase) (liftStack Ax)
          (liftStack Ay) (liftStack Az) ws).1 r i0 c).isFinite = false) ∧
    ((ws i0).2.1 = 0 → ∀ r c,
      ((update_weighted_proj_data_np (liftStack phase) (liftStack Ax)
          (liftStack Ay) (liftStack Az) ws).2.1 r i0 c).isFinite = false) ∧
    ((ws i0).2.2 = 0 → ∀ r c,
      ((update_weighted_proj_data_np (liftStack phase) (liftStack Ax)
          (liftStack Ay) (liftStack Az) ws).2.2 r i0 c).isFinite = false) ∧
    (∀ (wlist : List ℝ) (thresh : ℝ), 0 ≤ thresh → wlist[i0]? = some 0 →
      i0 ∉ select_thresh wlist thresh 0) := by
  refine ⟨?_, ?_, ?_, ?_⟩
  · intro h0 r c
    show (((((NpVal.fin (phase r i0 c)).mul (NpVal.fin 1)).divReal const).sub
        ((NpVal.fin (Ay r i0 c)).mul (NpVal.fin (ws i0).2.1))
        |>.sub ((NpVal.fin (Az r i0 c)).mul (NpVal.fin (ws i0).2.2))).mul
          (np_inv (ws i0).1)).isFinite = false
    rw [fin_chain_eq, h0]
    exact fin_mul_inv_zero_nonfinite _
  · intro h1 r c
    show (((((NpVal.fin (phase r i0 c)).mul (NpVal.fin 1)).divReal const).sub
        ((NpVal.fin (Ax r i0 c)).mul (NpVal.fin (ws i0).1))
        |>.sub ((NpVal.fin (Az r i0 c)).mul (NpVal.fin (ws i0).2.2))).mul
          (np_inv (ws i0).2.1)).isFinite = false
    rw [fin_chain_eq, h1]
    exact fin_mul_inv_zero_nonfinite _
  · intro h2 r c
    show (((((NpVal.fin (phase r i0 c)).mul (NpVal.fin 1)).divReal const).sub
        ((NpVal.fin (Ay r i0 c)).mul (NpVal.fin (ws i0).2.1))
        |>.sub ((NpVal.fin (Ax r i0 c)).mul (NpVal.fin (ws i0).1))).mul
          (np_inv (ws i0).2.2)).isFinite = false
    rw [fin_chain_eq, h2]
    exact fin_mul_inv_zero_nonfinite _
  · intro wlist thresh hth hget hmem
    obtain ⟨j, w, hn, hj, hw⟩ := mem_select_thresh wlist thresh 0 i0 hmem
    have hji : j = i0 := by omega
    subst hji
    rw [hget] at hj
    have hw0 : w = 0 := by
      injection hj with h
      exact h.symm
    subst hw0
    rw [abs_zero] at hw
    linarith

/-- Witness for C10 at a concrete all-ones stack with weight triple
`(1, 1, 0)` at every tilt: the z-component weight is zero (as at
`ax = 90`), and the z-component output slices are non-finite. -/
theorem zero_weight_nonfinite_slices_witness :
    ((fun _ : ℕ => ((1 : ℝ), (1 : ℝ), (0 : ℝ))) 0).2.2 = 0 ∧
    (∀ r c,
      ((update_weighted_proj_data_np (liftStack fun _ _ _ => 1)
          (liftStack fun _ _ _ => 1) (liftStack fun _ _ _ => 1)
          (liftStack fun _ _ _ => 1)
          (fun _ => ((1 : ℝ), (1 : ℝ), (0 : ℝ)))).2.2 r 0 c).isFinite = false) :=
  ⟨rfl, (zero_weight_nonfinite_slices (fun _ _ _ => 1) (fun _ _ _ => 1)
    (fun _ _ _ => 1) (fun _ _ _ => 1)
    (fun _ => ((1 : ℝ), (1 : ℝ), (0 : ℝ))) 0).2.2.1 rfl⟩

/-- C7 (failing input): in the `quad` mode with secondary axis `gamma` and
`gamma < 90`, the sub-series count is the bare true division `n_tilt/4`
— a Python float, not floored to an integer — so `np.linspace` rejects
it and the generator fails, unlike the parallel `gamma ≥ 90` branch
which floors with `int(n_tilt/4)`. -/
theorem quad_gamma_float_count_fails :
    generate_angles "quad" 40 70 40 45 8 "gamma" (fun _ => 0) =
      Except.error GenError.badCount := by
  simp [generate_angles, np_linspace_checked]
  norm_num
  rfl

/-- C8 (counterexample to the claim): a call with the unrecognized mode
string `"spiral"` is not rejected with an error; it silently returns the
empty angle list. -/
theorem unrecognized_mode_not_rejected :
    generate_angles "spiral" 40 70 40 180 8 "gamma" (fun _ => 0) =
      Except.ok [] := by
  simp [generate_angles]

/-- C8 (amended): for every mode string outside the enumerated set,
`generate_angles` does not fail fast; it returns the empty angle list
with no error, for all remaining parameters. -/
theorem unrecognized_mode_returns_empty_list (mode : String) (n_tilt : ℕ)
    (alpha beta gamma : ℝ) (dist_n2 : ℕ) (tilt2 : String) (rng : ℕ → ℝ)
    (h : mode ∉ ["x", "y", "dual", "quad", "rand", "sync", "sx", "dist"]) :
    generate_angles mode n_tilt alpha beta gamma dist_n2 tilt2 rng =
      Except.ok [] := by
  simp only [List.mem_cons, List.not_mem_nil, or_false] at h
  push_neg at h
  obtain ⟨h1, h2, h3, h4, h5, h6, h7, h8⟩ := h
  rw [generate_angles, if_neg h1, if_neg h2, if_neg h3, if_neg h4, if_neg h5,
    if_neg h6, if_neg h7, if_neg h8]

/-- Witness for the amended C8 theorem at the unrecognized mode
`"helical"`. -/
theorem unrecognized_mode_returns_empty_list_witness :
    "helical" ∉ ["x", "y", "dual", "quad", "rand", "sync", "sx", "dist"] ∧
      generate_angles "helical" 40 70 40 180 8 "gamma" (fun _ => 0) =
        Except.ok [] :=
  ⟨by decide, unrecognized_mode_returns_empty_list "helical" 40 70 40 180 8
    "gamma" (fun _ => 0) (by decide)⟩

end

end MultiAxis
